import Mathlib

/-!
Verification development for the CrimeSpotter UK server (server.js and its
variant source files).  The JavaScript code is shallowly embedded: pure
helper functions become Lean functions, the stateful dates cache becomes
explicit state passing, and each network call is modelled by an explicit
outcome parameter (the code under test never performs I/O itself, it only
reacts to the outcome).  JavaScript numbers produced by parseFloat are
decimal values; they are modelled exactly as scaled decimals (an integer
numerator over a power of ten) together with NaN and the two infinities.
All repository comparisons on numbers are order comparisons, for which the
exact-decimal model agrees with IEEE doubles on the values appearing here.
-/

namespace CrimeSpotter

/-- A finite decimal value num / 10 ^ scale, the exact form produced by
parsing a decimal literal. -/
structure Dec where
  num : Int
  scale : Nat
deriving DecidableEq, Repr

/-- Ten to the power n as an integer, by structural recursion so that it
reduces in the kernel. -/
def pow10 : Nat → Int
  | 0 => 1
  | n + 1 => 10 * pow10 n

/-- The rational value of a scaled decimal: its mathematical meaning. -/
def Dec.toQ (d : Dec) : ℚ := (d.num : ℚ) / ((pow10 d.scale : Int) : ℚ)

/-- Strict order on scaled decimals by cross multiplication (kernel
computable). -/
def Dec.blt (a b : Dec) : Bool := decide (a.num * pow10 b.scale < b.num * pow10 a.scale)

/-- A JavaScript number as far as this code base observes it: NaN, one of
the infinities, or a finite decimal. -/
inductive JNum where
  | nan
  | posInf
  | negInf
  | fin (d : Dec)
deriving DecidableEq, Repr

/-- The JavaScript strict less-than: false whenever either side is NaN. -/
def JNum.lt : JNum → JNum → Bool
  | .nan, _ => false
  | _, .nan => false
  | .negInf, .negInf => false
  | .negInf, _ => true
  | _, .negInf => false
  | .posInf, _ => false
  | .fin _, .posInf => true
  | .fin a, .fin b => a.blt b

def JNum.isNaN : JNum → Bool
  | .nan => true
  | _ => false

/-- Number.isFinite on an already parsed number. -/
def JNum.isFin : JNum → Bool
  | .fin _ => true
  | _ => false

/-- Math.max of two values: NaN absorbs, otherwise the larger. -/
def JNum.max2 (a b : JNum) : JNum :=
  match a, b with
  | .nan, _ => .nan
  | _, .nan => .nan
  | x, y => if JNum.lt x y then y else x

/-- Math.min of two values: NaN absorbs, otherwise the smaller. -/
def JNum.min2 (a b : JNum) : JNum :=
  match a, b with
  | .nan, _ => .nan
  | _, .nan => .nan
  | x, y => if JNum.lt y x then y else x

/-- Math.max over a spread list (the empty spread gives -Infinity). -/
def jmax (l : List JNum) : JNum := l.foldl JNum.max2 .negInf

/-- Math.min over a spread list (the empty spread gives +Infinity). -/
def jmin (l : List JNum) : JNum := l.foldl JNum.min2 .posInf

/-! ## parseFloat

An executable model of the ECMAScript parseFloat on the relevant grammar:
optional whitespace, optional sign, then either the literal Infinity or a
decimal mantissa with optional fraction and optional exponent; the longest
valid prefix is used and NaN is returned when no prefix parses. -/

def isWs (c : Char) : Bool := c = ' ' ∨ c = '\t' ∨ c = '\n' ∨ c = '\r'

def isDigit (c : Char) : Bool := '0' ≤ c ∧ c ≤ '9'

def digVal (c : Char) : Nat := c.toNat - 48

def natOfDigits (ds : List Char) : Nat := ds.foldl (fun a c => 10 * a + digVal c) 0

/-- The exponent denoted by the suffix following the mantissa: e or E, an
optional sign and at least one digit; anything else contributes nothing. -/
def expOf (cs : List Char) : Int :=
  match cs with
  | c :: rest =>
    if c = 'e' ∨ c = 'E' then
      match rest with
      | '+' :: ds => if (ds.takeWhile isDigit).isEmpty then 0 else (natOfDigits (ds.takeWhile isDigit) : Int)
      | '-' :: ds => if (ds.takeWhile isDigit).isEmpty then 0 else -(natOfDigits (ds.takeWhile isDigit) : Int)
      | ds => if (ds.takeWhile isDigit).isEmpty then 0 else (natOfDigits (ds.takeWhile isDigit) : Int)
    else 0
  | [] => 0

/-- Parse the part after the optional sign. -/
def parseUnsigned (cs : List Char) (neg : Bool) : JNum :=
  if ("Infinity".data).isPrefixOf cs then (if neg then .negInf else .posInf)
  else
    let intDs := cs.takeWhile isDigit
    let r1 := cs.dropWhile isDigit
    let fracDs := match r1 with
      | '.' :: rest => rest.takeWhile isDigit
      | _ => []
    let r2 := match r1 with
      | '.' :: rest => rest.dropWhile isDigit
      | _ => r1
    if intDs.isEmpty && fracDs.isEmpty then .nan
    else
      let m : Nat := natOfDigits (intDs ++ fracDs)
      let sc : Int := expOf r2 - fracDs.length
      let mag : Dec := if 0 ≤ sc then ⟨(m : Int) * pow10 sc.toNat, 0⟩ else ⟨(m : Int), (-sc).toNat⟩
      .fin (if neg then ⟨-mag.num, mag.scale⟩ else mag)

def parseFloat (s : String) : JNum :=
  match s.data.dropWhile isWs with
  | '-' :: rest => parseUnsigned rest true
  | '+' :: rest => parseUnsigned rest false
  | cs => parseUnsigned cs false

/-! ## Coordinate validation

Two variants exist in the repository: server.js (and its duplicate
part_000) rejects only NaN parses, while the part_001 variant rejects every
non finite parse. -/

inductive ValidationResult where
  | invalid (error : String)
  | valid (lat lng : JNum)
deriving DecidableEq, Repr

namespace ServerJs

/-- validateCoordinates from server.js lines 74-91 (identical in
part_000): parseFloat both inputs, reject when either is NaN, then range
check latitude and longitude. -/
def validateCoordinates (lat lng : String) : ValidationResult :=
  let latitude := parseFloat lat
  let longitude := parseFloat lng
  if latitude.isNaN || longitude.isNaN then
    .invalid "Invalid coordinate format"
  else if JNum.lt latitude (.fin ⟨-90, 0⟩) || JNum.lt (.fin ⟨90, 0⟩) latitude then
    .invalid "Latitude must be between -90 and 90"
  else if JNum.lt longitude (.fin ⟨-180, 0⟩) || JNum.lt (.fin ⟨180, 0⟩) longitude then
    .invalid "Longitude must be between -180 and 180"
  else
    .valid latitude longitude

end ServerJs

namespace Part001

/-- validateCoordinates from the part_001 variant, lines 112-121: rejects
with the format error whenever either parse is not finite
(Number.isFinite), then performs the same range checks. -/
def validateCoordinates (lat lng : String) : ValidationResult :=
  let latitude := parseFloat lat
  let longitude := parseFloat lng
  if !(latitude.isFin) || !(longitude.isFin) then
    .invalid "Invalid coordinate format"
  else if JNum.lt latitude (.fin ⟨-90, 0⟩) || JNum.lt (.fin ⟨90, 0⟩) latitude then
    .invalid "Latitude must be between -90 and 90"
  else if JNum.lt longitude (.fin ⟨-180, 0⟩) || JNum.lt (.fin ⟨180, 0⟩) longitude then
    .invalid "Longitude must be between -180 and 180"
  else
    .valid latitude longitude

end Part001

/-! ## Crime records and the two aggregations

A CrimeRecord is an opaque upstream JSON object; the code reads only its
category field and its location.latitude and location.longitude fields,
which the upstream service delivers as strings (numeric strings for the
coordinates).  An absent field is modelled by none.  The or-defaulting and
the filter in the source use JavaScript truthiness, under which the only
falsy string is the empty one. -/

structure Location where
  latitude : Option String
  longitude : Option String
deriving DecidableEq, Repr

structure Crime where
  category : Option String
  location : Option Location
deriving DecidableEq, Repr

/-- JavaScript truthiness of a possibly absent string field. -/
def strTruthy : Option String → Bool
  | none => false
  | some s => decide (s ≠ "")

/-- The filter predicate of calculateBounds: crime.location and
crime.location.latitude and crime.location.longitude are all truthy. -/
def hasCoords (c : Crime) : Bool :=
  match c.location with
  | none => false
  | some l => strTruthy l.latitude && strTruthy l.longitude

/-- The latitude string read by calculateBounds (defaults are dead code
under the hasCoords filter). -/
def locLat (c : Crime) : String :=
  match c.location with
  | some l => l.latitude.getD ""
  | none => ""

/-- The longitude string read by calculateBounds. -/
def locLng (c : Crime) : String :=
  match c.location with
  | some l => l.longitude.getD ""
  | none => ""

structure Bounds where
  north : JNum
  south : JNum
  east : JNum
  west : JNum
deriving DecidableEq, Repr

/-- calculateBounds from server.js lines 96-116: null for an empty list,
filter records with truthy location coordinates, null if none remain,
otherwise the Math.max and Math.min of the parseFloat of each coordinate
over the filtered records. -/
def calculateBounds (crimes : List Crime) : Option Bounds :=
  if crimes.length = 0 then none
  else
    let validCrimes := crimes.filter hasCoords
    if validCrimes.length = 0 then none
    else
      let lats := validCrimes.map fun c => parseFloat (locLat c)
      let lngs := validCrimes.map fun c => parseFloat (locLng c)
      some ⟨jmax lats, jmin lats, jmax lngs, jmin lngs⟩

/-- The key a crime is counted under: crime.category or the literal
unknown, the or being JavaScript truthiness. -/
def jsCategory (c : Crime) : String :=
  match c.category with
  | some s => if s = "" then "unknown" else s
  | none => "unknown"

/-- A value stored in a histogram property: a number, or a string (strings
arise only through the prototype-chain artefacts modelled below). -/
inductive JVal where
  | num (n : Nat)
  | str (s : String)
deriving DecidableEq, Repr

/-- The data properties inherited by a plain object from Object.prototype
in Node, mapped to the name of the built-in function each one holds (the
constructor property holds the function named Object).  The accessor
property with the name of two underscores, proto, two underscores is
handled separately. -/
def protoFnName (k : String) : Option String :=
  if k = "constructor" then some "Object"
  else if k = "hasOwnProperty" ∨ k = "isPrototypeOf" ∨ k = "propertyIsEnumerable" ∨
      k = "toLocaleString" ∨ k = "toString" ∨ k = "valueOf" ∨
      k = "__defineGetter__" ∨ k = "__defineSetter__" ∨
      k = "__lookupGetter__" ∨ k = "__lookupSetter__" then some k
  else none

/-- String coercion of a native built-in function as rendered by the V8
engine the repository runs on (Node). -/
def nativeFnStr (name : String) : String :=
  "function " ++ name ++ "() \x7b [native code] \x7d"

/-- Whether a key collides with an inherited Object.prototype property. -/
def protoKey (k : String) : Bool :=
  decide (k = "__proto__") || (protoFnName k).isSome

/-- The value of the source expression (categories[k] or 0) + 1 on a plain
object: the read finds the own property when present, else the property
inherited from Object.prototype (a truthy built-in function, or for the
proto accessor the truthy Object.prototype itself), else undefined; the
or-default applies JavaScript truthiness and + is numeric addition on a
number but string concatenation on a truthy non-number. -/
def readIncr (m : List (String × JVal)) (k : String) : JVal :=
  match m.lookup k with
  | some (.num n) => if n = 0 then .num 1 else .num (n + 1)
  | some (.str s) => if s = "" then .num 1 else .str (s ++ "1")
  | none =>
    if k = "__proto__" then .str ("[object Object]" ++ "1")
    else
      match protoFnName k with
      | some name => .str (nativeFnStr name ++ "1")
      | none => .num 1

/-- Replace the value at key k, leaving other entries unchanged. -/
def setTo {β : Type} (k : String) (v : β) (p : String × β) : String × β :=
  if p.1 = k then (p.1, v) else p

/-- The assignment categories[k] = v on a plain object: the inherited
setter of the proto accessor swallows the write of a non-object value;
otherwise the own property is updated in place or created at the end
(JavaScript object insertion order). -/
def setProp (m : List (String × JVal)) (k : String) (v : JVal) : List (String × JVal) :=
  if k = "__proto__" then m
  else
    match m.lookup k with
    | some _ => m.map (setTo k v)
    | none => m ++ [(k, v)]

/-- One step of the histogram fold: the source line
categories[k] = (categories[k] or 0) + 1. -/
def addCat (m : List (String × JVal)) (k : String) : List (String × JVal) :=
  setProp m k (readIncr m k)

/-- processCrimeCategories from server.js lines 121-130. -/
def processCrimeCategories (crimes : List Crime) : List (String × JVal) :=
  crimes.foldl (fun m c => addCat m (jsCategory c)) []

/-- The numeric count recorded for a key in the histogram (0 when the key
is absent or holds a non-number). -/
def getCount (m : List (String × JVal)) (k : String) : Nat :=
  match m.lookup k with
  | some (.num n) => n
  | _ => 0

/-- The numeric reading of a stored value, for summing counts. -/
def jvalNum : JVal → Nat
  | .num n => n
  | .str _ => 0

/-- The invariant of histogram states reachable from records whose keys do
not collide with Object.prototype: every entry has a safe key and a
positive numeric count. -/
def safeMap (m : List (String × JVal)) : Prop :=
  ∀ p ∈ m, protoKey p.1 = false ∧ ∃ n, 1 ≤ n ∧ p.2 = JVal.num n

/-! ## The dates cache and getAvailableDates

The cache is the only mutable state; getAvailableDates is modelled as a
function of the cache, the clock and the outcome of the (at most one)
upstream fetch.  The upstream dates endpoint returns a JSON array of
objects each carrying a date string (the repository trusts this schema and
reads dates[0].date); a body of none models a non array JSON value such as
null.  The source wraps the whole refresh in try/catch, so the function is
total: every failure outcome is converted into the fallback return. -/

structure DateEntry where
  date : String
deriving DecidableEq, Repr

inductive DatesFetch where
  | transportError
  | httpError (status : Nat)
  | badJson
  | success (body : Option (List DateEntry))
deriving DecidableEq, Repr

structure DatesCache where
  data : Option String
  timestamp : Option Int
  ttl : Int
deriving DecidableEq, Repr

/-- The module level initial cache from server.js lines 26-30. -/
def initialDatesCache : DatesCache := ⟨none, none, 60 * 60 * 1000⟩

/-- JavaScript truthiness of the possibly null timestamp. -/
def intTruthy : Option Int → Bool
  | none => false
  | some t => decide (t ≠ 0)

/-- The cache hit test of server.js line 39: datesCache.data and
datesCache.timestamp and (now - datesCache.timestamp) < datesCache.ttl. -/
def hitB (cache : DatesCache) (now : Int) : Bool :=
  strTruthy cache.data && intTruthy cache.timestamp &&
    decide (now - cache.timestamp.getD 0 < cache.ttl)

structure DatesResult where
  value : String
  cache : DatesCache
  fetchCount : Nat
deriving DecidableEq, Repr

/-- getAvailableDates from server.js lines 35-69 (identical in part_000 and
part_001): return the cached value on a hit; otherwise perform exactly one
fetch; on any failure return the fallback without touching the cache; on
success take dates[0].date when the body is a non empty array and the
fallback string otherwise, store it with the current time, and return it. -/
def getAvailableDates (cache : DatesCache) (now : Int) (df : DatesFetch) : DatesResult :=
  if hitB cache now then
    ⟨cache.data.getD "", cache, 0⟩
  else
    match df with
    | .transportError => ⟨"2025-06", cache, 1⟩
    | .httpError _ => ⟨"2025-06", cache, 1⟩
    | .badJson => ⟨"2025-06", cache, 1⟩
    | .success body =>
      let latestDate : String :=
        match body with
        | some (e :: _) => e.date
        | _ => "2025-06"
      ⟨latestDate, ⟨some latestDate, some now, cache.ttl⟩, 1⟩

/-! ## The GET /api/crimes handler

The handler (server.js lines 231-297) is modelled as a function of the
query parameters, the cache state, the clock, the outcome of the dates
fetch (consulted only when needed), the outcome of the crimes fetch and
NODE_ENV.  The result records the HTTP status, the JSON payload fields the
claims talk about, and a trace of what the handler did: which coordinates
and date were used for the upstream URL, whether getAvailableDates was
called, how many dates fetches that triggered, and the cache afterwards. -/

inductive CrimesFetch where
  | failure (msg : String)
  | httpError (status : Nat) (statusText : String)
  | success (crimes : List Crime)
deriving DecidableEq, Repr

structure CrimesQuery where
  lat : Option String
  lng : Option String
  date : Option String
deriving DecidableEq, Repr

structure ApiCrimesResult where
  status : Nat
  success : Bool
  error : Option String
  details : Option String
  date : Option String
  count : Option Nat
  crimes : Option (List Crime)
  categories : Option (List (String × JVal))
  bounds : Option (Option Bounds)
  usedLat : Option JNum
  usedLng : Option JNum
  usedDate : Option String
  consultedCache : Bool
  datesFetchCount : Nat
  cache : DatesCache
deriving DecidableEq, Repr

/-- The message of the error thrown on a non 2xx crimes response, server.js
line 261. -/
def ukMsg (status : Nat) (statusText : String) : String :=
  "UK Police API error: " ++ toString status ++ " " ++ statusText

/-- Substring test modelling String.prototype.includes. -/
def containsSub (hay needle : String) : Bool :=
  (List.range (hay.data.length + 1)).any fun i => needle.data.isPrefixOf (hay.data.drop i)

/-- The catch handler classification of server.js lines 288-289. -/
def classify (msg : String) : Nat :=
  if containsSub msg "timeout" then 504
  else if containsSub msg "UK Police API" then 502
  else 500

/-- The error payload of server.js lines 291-295: a generic message, with
the raw error text attached only when NODE_ENV is development. -/
def errorResult (msg : String) (env : Option String) (la ln : JNum) (queryDate : String)
    (consulted : Bool) (dCount : Nat) (cache : DatesCache) : ApiCrimesResult :=
  { status := classify msg
    success := false
    error := some "Failed to fetch crime data. Please try again."
    details := if env = some "development" then some msg else none
    date := none
    count := none
    crimes := none
    categories := none
    bounds := none
    usedLat := some la
    usedLng := some ln
    usedDate := some queryDate
    consultedCache := consulted
    datesFetchCount := dCount
    cache := cache }

/-- The GET /api/crimes handler, server.js lines 231-297.  Destructuring
defaults the missing coordinates to the London strings; validation happens
on the defaulted strings; the query date is the caller supplied one when
truthy, else the getAvailableDates result; the crimes fetch outcome is then
rendered as the success payload or classified by the catch handler. -/
def apiCrimes (q : CrimesQuery) (cache : DatesCache) (now : Int) (df : DatesFetch)
    (cf : CrimesFetch) (env : Option String) : ApiCrimesResult :=
  let lat := q.lat.getD "51.5074"
  let lng := q.lng.getD "-0.1278"
  match ServerJs.validateCoordinates lat lng with
  | .invalid e =>
    { status := 400, success := false, error := some e, details := none, date := none
      count := none, crimes := none, categories := none, bounds := none
      usedLat := none, usedLng := none, usedDate := none
      consultedCache := false, datesFetchCount := 0, cache := cache }
  | .valid la ln =>
    let dres := getAvailableDates cache now df
    let queryDate := match q.date with
      | some d => if d = "" then dres.value else d
      | none => dres.value
    let consulted := match q.date with
      | some d => d = ""
      | none => true
    let dCount := if consulted then dres.fetchCount else 0
    let cache1 := if consulted then dres.cache else cache
    match cf with
    | .success crimes =>
      { status := 200, success := true, error := none, details := none
        date := some queryDate, count := some crimes.length, crimes := some crimes
        categories := some (processCrimeCategories crimes)
        bounds := some (calculateBounds crimes)
        usedLat := some la, usedLng := some ln, usedDate := some queryDate
        consultedCache := consulted, datesFetchCount := dCount, cache := cache1 }
    | .failure msg => errorResult msg env la ln queryDate consulted dCount cache1
    | .httpError s st => errorResult (ukMsg s st) env la ln queryDate consulted dCount cache1

/-! ## General lemmas -/

theorem pow10_pos (n : Nat) : 0 < pow10 n := by
  induction n with
  | zero => decide
  | succ k ih =>
    have h10 : (0 : Int) < 10 := by decide
    simpa [pow10] using mul_pos h10 ih

theorem pow10_cast_pos (n : Nat) : (0 : ℚ) < ((pow10 n : Int) : ℚ) := by
  exact_mod_cast pow10_pos n

theorem Dec.blt_iff (a b : Dec) : a.blt b = true ↔ a.toQ < b.toQ := by
  unfold Dec.blt Dec.toQ
  rw [decide_eq_true_eq, div_lt_div_iff₀ (pow10_cast_pos a.scale) (pow10_cast_pos b.scale)]
  constructor
  · intro h; exact_mod_cast h
  · intro h; exact_mod_cast h

theorem Dec.blt_eq (a b : Dec) : a.blt b = decide (a.toQ < b.toQ) := by
  cases hb : a.blt b
  · symm
    rw [decide_eq_false_iff_not]
    intro h
    have hc := (Dec.blt_iff a b).2 h
    rw [hb] at hc
    exact Bool.noConfusion hc
  · symm
    rw [decide_eq_true_eq]
    exact (Dec.blt_iff a b).1 hb

theorem toQ_n90 : Dec.toQ ⟨-90, 0⟩ = -90 := by norm_num [Dec.toQ, pow10]

theorem toQ_p90 : Dec.toQ ⟨90, 0⟩ = 90 := by norm_num [Dec.toQ, pow10]

theorem toQ_n180 : Dec.toQ ⟨-180, 0⟩ = -180 := by norm_num [Dec.toQ, pow10]

theorem toQ_p180 : Dec.toQ ⟨180, 0⟩ = 180 := by norm_num [Dec.toQ, pow10]

theorem isNaN_false_of_ne {j : JNum} (h : j ≠ .nan) : j.isNaN = false := by
  cases j with
  | nan => exact absurd rfl h
  | posInf => rfl
  | negInf => rfl
  | fin d => rfl

theorem containsSub_of_isPrefixOf {hay needle : String}
    (h : needle.data.isPrefixOf hay.data = true) : containsSub hay needle = true := by
  unfold containsSub
  rw [List.any_eq_true]
  exact ⟨0, by simp [List.mem_range], by simpa using h⟩

theorem ukMsg_has_marker (s : Nat) (st : String) :
    containsSub (ukMsg s st) "UK Police API" = true := by
  apply containsSub_of_isPrefixOf
  rw [ List.isPrefixOf_iff_prefix]
  have h1 : "UK Police API".data <+: "UK Police API error: ".data := by decide
  have h2 : (ukMsg s st).data =
      "UK Police API error: ".data ++ ((toString s ++ " " ++ st).data) := by
    simp [ukMsg, String.data_append, List.append_assoc]
  rw [h2]
  exact h1.trans (List.prefix_append _ _)

theorem classify_ne_400 (msg : String) : classify msg ≠ 400 := by
  unfold classify
  split
  · decide
  · split <;> decide

theorem hitB_true_of {cache : DatesCache} {now : Int} (d : String) (t : Int)
    (hd : cache.data = some d) (hne : d ≠ "") (ht : cache.timestamp = some t)
    (htne : t ≠ 0) (hlt : now - t < cache.ttl) : hitB cache now = true := by
  simp [hitB, strTruthy, intTruthy, hd, ht, hne, htne, hlt]

theorem hitB_false_of {cache : DatesCache} {now : Int}
    (h : ∀ d t, cache.data = some d → cache.timestamp = some t → d ≠ "" → t ≠ 0 →
      cache.ttl ≤ now - t) : hitB cache now = false := by
  cases hd : cache.data with
  | none => simp [hitB, strTruthy, hd]
  | some d =>
    cases ht : cache.timestamp with
    | none => simp [hitB, intTruthy, ht]
    | some t =>
      by_cases hde : d = ""
      · simp [hitB, strTruthy, hd, hde]
      · by_cases hte : t = 0
        · simp [hitB, intTruthy, ht, hte]
        · have hle := h d t hd ht hde hte
          simp [hitB, strTruthy, intTruthy, hd, ht, hde, hte, not_lt.mpr hle]

theorem setTo_eq {β : Type} {k : String} (v : β) (a : String) (b : β) (h : a = k) :
    setTo k v (a, b) = (a, v) := if_pos h

theorem setTo_ne {β : Type} {k : String} (v : β) (a : String) (b : β) (h : a ≠ k) :
    setTo k v (a, b) = (a, b) := if_neg h

theorem lookup_set_ne {β : Type} (m : List (String × β)) (k k2 : String) (v : β)
    (hne : k2 ≠ k) : (m.map (setTo k v)).lookup k2 = m.lookup k2 := by
  induction m with
  | nil => rfl
  | cons q m ih =>
    obtain ⟨a, b⟩ := q
    rw [List.map_cons]
    by_cases ha : a = k
    · rw [setTo_eq v a b ha]
      have hka : (k2 == a) = false := beq_false_of_ne (ha ▸ hne)
      simp [List.lookup, hka, ih]
    · rw [setTo_ne v a b ha]
      cases hk : (k2 == a) <;> simp [List.lookup, hk, ih]

theorem lookup_set_self {β : Type} (m : List (String × β)) (k : String) (v : β) :
    (m.map (setTo k v)).lookup k = (m.lookup k).map (fun _ => v) := by
  induction m with
  | nil => rfl
  | cons q m ih =>
    obtain ⟨a, b⟩ := q
    rw [List.map_cons]
    by_cases ha : a = k
    · rw [setTo_eq v a b ha]
      have hka : (k == a) = true := by simp [ha]
      simp [List.lookup, hka]
    · rw [setTo_ne v a b ha]
      have hka : (k == a) = false := beq_false_of_ne fun hc => ha hc.symm
      simp [List.lookup, hka, ih]

theorem lookup_concat_self {β : Type} (m : List (String × β)) (k : String) (v : β)
    (h : m.lookup k = none) : (m ++ [(k, v)]).lookup k = some v := by
  induction m with
  | nil => simp [List.lookup]
  | cons q m ih =>
    obtain ⟨a, b⟩ := q
    cases hk : (k == a) with
    | true => simp [List.lookup, hk] at h
    | false =>
      simp only [List.lookup, hk] at h
      simpa [List.lookup, hk] using ih h

theorem lookup_concat_ne {β : Type} (m : List (String × β)) (k k2 : String) (v : β)
    (hne : k2 ≠ k) : (m ++ [(k, v)]).lookup k2 = m.lookup k2 := by
  induction m with
  | nil => simp [List.lookup, beq_false_of_ne hne]
  | cons q m ih =>
    obtain ⟨a, b⟩ := q
    cases hk : (k2 == a) <;> simp [List.lookup, hk, ih]

theorem lookup_none_of_not_mem {β : Type} (m : List (String × β)) (k : String)
    (h : k ∉ m.map Prod.fst) : m.lookup k = none := by
  induction m with
  | nil => rfl
  | cons q m ih =>
    obtain ⟨a, b⟩ := q
    rw [List.map_cons, List.mem_cons] at h
    push_neg at h
    simp [List.lookup, beq_false_of_ne h.1, ih h.2]

theorem lookup_ne_none_of_mem {β : Type} (m : List (String × β)) (k : String)
    (h : k ∈ m.map Prod.fst) : m.lookup k ≠ none := by
  induction m with
  | nil => simp at h
  | cons q m ih =>
    obtain ⟨a, b⟩ := q
    rw [List.map_cons, List.mem_cons] at h
    cases hk : (k == a) with
    | true => simp [List.lookup, hk]
    | false =>
      have hne : k ≠ a := by simpa using hk
      rcases h with h | h
      · exact absurd h hne
      · simpa [List.lookup, hk] using ih h

theorem lookup_some_mem {β : Type} (m : List (String × β)) (k : String) (v : β)
    (h : m.lookup k = some v) : (k, v) ∈ m := by
  induction m with
  | nil => simp [List.lookup] at h
  | cons q m ih =>
    obtain ⟨a, b⟩ := q
    cases hk : (k == a) with
    | true =>
      have hka : k = a := by simpa using hk
      simp only [List.lookup, hk] at h
      have hbv : b = v := Option.some.inj h
      subst hka
      subst hbv
      exact List.mem_cons_self _ _
    | false =>
      simp only [List.lookup, hk] at h
      exact List.mem_cons_of_mem _ (ih h)

theorem keys_set {β : Type} (m : List (String × β)) (k : String) (v : β) :
    (m.map (setTo k v)).map Prod.fst = m.map Prod.fst := by
  induction m with
  | nil => rfl
  | cons q m ih =>
    obtain ⟨a, b⟩ := q
    rw [List.map_cons]
    by_cases ha : a = k
    · rw [setTo_eq v a b ha]
      simp [ih]
    · rw [setTo_ne v a b ha]
      simp [ih]

theorem map_set_id {β : Type} (m : List (String × β)) (k : String) (v : β)
    (h : m.lookup k = none) : m.map (setTo k v) = m := by
  induction m with
  | nil => rfl
  | cons q m ih =>
    obtain ⟨a, b⟩ := q
    cases hk : (k == a) with
    | true => simp [List.lookup, hk] at h
    | false =>
      simp only [List.lookup, hk] at h
      have ha : a ≠ k := fun hc => by simp [hc] at hk
      rw [List.map_cons, setTo_ne v a b ha, ih h]

theorem getCount_none {m : List (String × JVal)} {k : String}
    (h : m.lookup k = none) : getCount m k = 0 := by
  unfold getCount
  rw [h]

theorem getCount_num {m : List (String × JVal)} {k : String} {n : Nat}
    (h : m.lookup k = some (.num n)) : getCount m k = n := by
  unfold getCount
  rw [h]

theorem protoKey_false_parts {k : String} (h : protoKey k = false) :
    k ≠ "__proto__" ∧ protoFnName k = none := by
  unfold protoKey at h
  rw [Bool.or_eq_false_iff] at h
  refine ⟨by simpa using h.1, ?_⟩
  cases hp : protoFnName k with
  | none => rfl
  | some name => rw [hp] at h; simp at h

theorem readIncr_safe (m : List (String × JVal)) (k : String)
    (hm : safeMap m) (hk : protoKey k = false) :
    readIncr m k = .num (getCount m k + 1) := by
  obtain ⟨hk1, hk2⟩ := protoKey_false_parts hk
  unfold readIncr
  cases hl : m.lookup k with
  | none => rw [getCount_none hl]; simp [hk1, hk2]
  | some v =>
    obtain ⟨-, n, hn1, hnv⟩ := hm (k, v) (lookup_some_mem m k v hl)
    subst hnv
    rw [getCount_num hl]
    have hn0 : n ≠ 0 := by omega
    simp [hn0]

theorem getCount_addCat_self (m : List (String × JVal)) (k : String)
    (hm : safeMap m) (hk : protoKey k = false) :
    getCount (addCat m k) k = getCount m k + 1 := by
  obtain ⟨hk1, -⟩ := protoKey_false_parts hk
  unfold addCat setProp
  rw [readIncr_safe m k hm hk, if_neg hk1]
  cases hl : m.lookup k with
  | none =>
    exact getCount_num (lookup_concat_self m k _ hl)
  | some v =>
    have h2 := lookup_set_self m k (JVal.num (getCount m k + 1))
    rw [hl] at h2
    exact getCount_num h2

theorem getCount_addCat_ne (m : List (String × JVal)) (k k2 : String)
    (hk : protoKey k = false) (hne : k2 ≠ k) :
    getCount (addCat m k) k2 = getCount m k2 := by
  obtain ⟨hk1, -⟩ := protoKey_false_parts hk
  unfold addCat setProp
  rw [if_neg hk1]
  cases hl : m.lookup k with
  | none => unfold getCount; rw [lookup_concat_ne m k k2 _ hne]
  | some v => unfold getCount; rw [lookup_set_ne m k k2 _ hne]

theorem addCat_safe (m : List (String × JVal)) (k : String)
    (hm : safeMap m) (hk : protoKey k = false) :
    safeMap (addCat m k) := by
  obtain ⟨hk1, -⟩ := protoKey_false_parts hk
  unfold addCat setProp
  rw [readIncr_safe m k hm hk, if_neg hk1]
  cases hl : m.lookup k with
  | none =>
    intro p hp
    rcases List.mem_append.1 hp with h | h
    · exact hm p h
    · rw [List.mem_singleton] at h
      subst h
      exact ⟨hk, getCount m k + 1, by omega, rfl⟩
  | some v =>
    intro p hp
    rcases List.mem_map.1 hp with ⟨q, hq, hset⟩
    obtain ⟨a, b⟩ := q
    by_cases ha : a = k
    · rw [setTo_eq _ a b ha] at hset
      subst hset
      exact ⟨ha ▸ hk, getCount m k + 1, by omega, rfl⟩
    · rw [setTo_ne _ a b ha] at hset
      subst hset
      exact hm (a, b) hq

theorem addCat_nodup (m : List (String × JVal)) (k : String)
    (hk : protoKey k = false) (hnd : (m.map Prod.fst).Nodup) :
    ((addCat m k).map Prod.fst).Nodup := by
  obtain ⟨hk1, -⟩ := protoKey_false_parts hk
  unfold addCat setProp
  rw [if_neg hk1]
  cases hl : m.lookup k with
  | none =>
    have hnm : k ∉ m.map Prod.fst := fun hc => lookup_ne_none_of_mem m k hc hl
    rw [List.map_append, List.nodup_append]
    exact ⟨hnd, List.nodup_singleton k, by
      intro x hx hx2
      simp at hx2
      exact hnm (hx2 ▸ hx)⟩
  | some v =>
    rw [keys_set]
    exact hnd

theorem set_sum (m : List (String × JVal)) (k : String) (n : Nat)
    (hnd : (m.map Prod.fst).Nodup) (hsome : m.lookup k = some (.num n)) :
    ((m.map (setTo k (JVal.num (n + 1)))).map (fun p => jvalNum p.2)).sum =
      (m.map (fun p => jvalNum p.2)).sum + 1 := by
  induction m with
  | nil => simp [List.lookup] at hsome
  | cons q m ih =>
    obtain ⟨a, b⟩ := q
    rw [List.map_cons, List.nodup_cons] at hnd
    by_cases ha : a = k
    · subst ha
      have haa : (a == a) = true := by simp
      have hb : b = JVal.num n := by
        have h2 : some b = some (JVal.num n) := by simpa [List.lookup, haa] using hsome
        exact Option.some.inj h2
      have hnone : m.lookup a = none := lookup_none_of_not_mem m a hnd.1
      rw [List.map_cons, setTo_eq _ a b rfl, map_set_id m a _ hnone]
      subst hb
      simp [jvalNum]
      omega
    · have hka : (k == a) = false := beq_false_of_ne fun hc => ha hc.symm
      have hsome2 : m.lookup k = some (JVal.num n) := by
        simpa [List.lookup, hka] using hsome
      rw [List.map_cons, setTo_ne _ a b ha]
      simp only [List.map_cons, List.sum_cons]
      rw [ih hnd.2 hsome2]
      omega

theorem addCat_sum (m : List (String × JVal)) (k : String)
    (hm : safeMap m) (hk : protoKey k = false) (hnd : (m.map Prod.fst).Nodup) :
    ((addCat m k).map (fun p => jvalNum p.2)).sum =
      (m.map (fun p => jvalNum p.2)).sum + 1 := by
  obtain ⟨hk1, -⟩ := protoKey_false_parts hk
  unfold addCat setProp
  rw [readIncr_safe m k hm hk, if_neg hk1]
  cases hl : m.lookup k with
  | none =>
    rw [getCount_none hl]
    simp [jvalNum]
  | some v =>
    obtain ⟨-, n, hn1, hnv⟩ := hm (k, v) (lookup_some_mem m k v hl)
    subst hnv
    rw [getCount_num hl]
    exact set_sum m k n hnd hl

theorem getCount_fold (crimes : List Crime) (k : String) :
    ∀ m, safeMap m → (∀ c ∈ crimes, protoKey (jsCategory c) = false) →
      getCount (crimes.foldl (fun m c => addCat m (jsCategory c)) m) k =
        getCount m k + crimes.countP (fun c => decide (jsCategory c = k)) := by
  induction crimes with
  | nil => intro m _ _; simp
  | cons c cs ih =>
    intro m hm hsafe
    have hkc : protoKey (jsCategory c) = false := hsafe c (List.mem_cons_self _ _)
    have hsafe2 : ∀ c2 ∈ cs, protoKey (jsCategory c2) = false :=
      fun c2 h => hsafe c2 (List.mem_cons_of_mem _ h)
    rw [List.foldl_cons, ih _ (addCat_safe m _ hm hkc) hsafe2, List.countP_cons]
    by_cases hk : jsCategory c = k
    · rw [hk] at hkc
      rw [hk, getCount_addCat_self m k hm hkc]
      simp [hk]
      omega
    · rw [getCount_addCat_ne m (jsCategory c) k hkc fun h => hk h.symm]
      simp [hk]

theorem sum_fold (crimes : List Crime) :
    ∀ m, safeMap m → (m.map Prod.fst).Nodup →
      (∀ c ∈ crimes, protoKey (jsCategory c) = false) →
      ((crimes.foldl (fun m c => addCat m (jsCategory c)) m).map
        (fun p => jvalNum p.2)).sum =
        (m.map (fun p => jvalNum p.2)).sum + crimes.length := by
  induction crimes with
  | nil => intro m _ _ _; simp
  | cons c cs ih =>
    intro m hm hnd hsafe
    have hkc : protoKey (jsCategory c) = false := hsafe c (List.mem_cons_self _ _)
    have hsafe2 : ∀ c2 ∈ cs, protoKey (jsCategory c2) = false :=
      fun c2 h => hsafe c2 (List.mem_cons_of_mem _ h)
    rw [List.foldl_cons,
      ih _ (addCat_safe m _ hm hkc) (addCat_nodup m _ hkc hnd) hsafe2,
      addCat_sum m _ hm hkc hnd, List.length_cons]
    omega

theorem cat_unknown_iff (c : Crime) :
    jsCategory c = "unknown" ↔
      (c.category = none ∨ c.category = some "" ∨ c.category = some "unknown") := by
  cases hc : c.category with
  | none => simp [jsCategory, hc]
  | some s => by_cases hs : s = "" <;> simp [jsCategory, hc, hs]

theorem countP_ext (l : List Crime) (p q : Crime → Bool) (h : ∀ c, p c = q c) :
    l.countP p = l.countP q := by
  induction l with
  | nil => rfl
  | cons c cs ih => rw [List.countP_cons, List.countP_cons, h c, ih]

theorem max2_fin (a b : Dec) :
    JNum.max2 (.fin a) (.fin b) = .fin (if a.blt b then b else a) := by
  cases hb : a.blt b <;> simp [JNum.max2, JNum.lt, hb]

theorem min2_fin (a b : Dec) :
    JNum.min2 (.fin a) (.fin b) = .fin (if b.blt a then b else a) := by
  cases hb : b.blt a <;> simp [JNum.min2, JNum.lt, hb]

theorem max2_negInf_fin (d : Dec) : JNum.max2 .negInf (.fin d) = .fin d := by
  simp [JNum.max2, JNum.lt]

theorem min2_posInf_fin (d : Dec) : JNum.min2 .posInf (.fin d) = .fin d := by
  simp [JNum.min2, JNum.lt]

theorem jmax_go (ds : List Dec) (a : Dec) :
    ∃ m : Dec, List.foldl JNum.max2 (.fin a) (ds.map JNum.fin) = .fin m ∧
      (m = a ∨ m ∈ ds) ∧ a.toQ ≤ m.toQ ∧ ∀ x ∈ ds, x.toQ ≤ m.toQ := by
  induction ds generalizing a with
  | nil => exact ⟨a, rfl, Or.inl rfl, le_refl _, by simp⟩
  | cons d ds ih =>
    by_cases hb : a.blt d = true
    · rw [List.map_cons, List.foldl_cons, max2_fin, if_pos hb]
      obtain ⟨m, hm, hmem, hle, hall⟩ := ih d
      have had : a.toQ ≤ d.toQ := le_of_lt ((Dec.blt_iff a d).1 hb)
      refine ⟨m, hm, ?_, le_trans had hle, ?_⟩
      · rcases hmem with h | h
        · exact Or.inr (h ▸ List.mem_cons_self d ds)
        · exact Or.inr (List.mem_cons_of_mem _ h)
      · intro x hx
        rcases List.mem_cons.1 hx with h | h
        · exact h ▸ hle
        · exact hall x h
    · rw [List.map_cons, List.foldl_cons, max2_fin, if_neg (by simpa using hb)]
      obtain ⟨m, hm, hmem, hle, hall⟩ := ih a
      have hda : d.toQ ≤ a.toQ :=
        le_of_not_lt fun hc => hb ((Dec.blt_iff a d).2 hc)
      refine ⟨m, hm, ?_, hle, ?_⟩
      · rcases hmem with h | h
        · exact Or.inl h
        · exact Or.inr (List.mem_cons_of_mem _ h)
      · intro x hx
        rcases List.mem_cons.1 hx with h | h
        · exact h ▸ le_trans hda hle
        · exact hall x h

theorem jmin_go (ds : List Dec) (a : Dec) :
    ∃ m : Dec, List.foldl JNum.min2 (.fin a) (ds.map JNum.fin) = .fin m ∧
      (m = a ∨ m ∈ ds) ∧ m.toQ ≤ a.toQ ∧ ∀ x ∈ ds, m.toQ ≤ x.toQ := by
  induction ds generalizing a with
  | nil => exact ⟨a, rfl, Or.inl rfl, le_refl _, by simp⟩
  | cons d ds ih =>
    by_cases hb : d.blt a = true
    · rw [List.map_cons, List.foldl_cons, min2_fin, if_pos hb]
      obtain ⟨m, hm, hmem, hle, hall⟩ := ih d
      have hda : d.toQ ≤ a.toQ := le_of_lt ((Dec.blt_iff d a).1 hb)
      refine ⟨m, hm, ?_, le_trans hle hda, ?_⟩
      · rcases hmem with h | h
        · exact Or.inr (h ▸ List.mem_cons_self d ds)
        · exact Or.inr (List.mem_cons_of_mem _ h)
      · intro x hx
        rcases List.mem_cons.1 hx with h | h
        · exact h ▸ hle
        · exact hall x h
    · rw [List.map_cons, List.foldl_cons, min2_fin, if_neg (by simpa using hb)]
      obtain ⟨m, hm, hmem, hle, hall⟩ := ih a
      have had : a.toQ ≤ d.toQ :=
        le_of_not_lt fun hc => hb ((Dec.blt_iff d a).2 hc)
      refine ⟨m, hm, ?_, hle, ?_⟩
      · rcases hmem with h | h
        · exact Or.inl h
        · exact Or.inr (List.mem_cons_of_mem _ h)
      · intro x hx
        rcases List.mem_cons.1 hx with h | h
        · exact h ▸ le_trans hle had
        · exact hall x h

theorem jmax_fin (d : Dec) (ds : List Dec) :
    ∃ m, jmax ((d :: ds).map JNum.fin) = .fin m ∧ m ∈ d :: ds ∧
      ∀ x ∈ d :: ds, x.toQ ≤ m.toQ := by
  unfold jmax
  rw [List.map_cons, List.foldl_cons, max2_negInf_fin]
  obtain ⟨m, hm, hmem, hle, hall⟩ := jmax_go ds d
  refine ⟨m, hm, ?_, ?_⟩
  · rcases hmem with h | h
    · exact h ▸ List.mem_cons_self d ds
    · exact List.mem_cons_of_mem _ h
  · intro x hx
    rcases List.mem_cons.1 hx with h | h
    · exact h ▸ hle
    · exact hall x h

theorem jmin_fin (d : Dec) (ds : List Dec) :
    ∃ m, jmin ((d :: ds).map JNum.fin) = .fin m ∧ m ∈ d :: ds ∧
      ∀ x ∈ d :: ds, m.toQ ≤ x.toQ := by
  unfold jmin
  rw [List.map_cons, List.foldl_cons, min2_posInf_fin]
  obtain ⟨m, hm, hmem, hle, hall⟩ := jmin_go ds d
  refine ⟨m, hm, ?_, ?_⟩
  · rcases hmem with h | h
    · exact h ▸ List.mem_cons_self d ds
    · exact List.mem_cons_of_mem _ h
  · intro x hx
    rcases List.mem_cons.1 hx with h | h
    · exact h ▸ hle
    · exact hall x h

/-! ## Claim theorems -/

/-- C1 (amended): a call to getAvailableDates made while the cache holds a
non empty value and a nonzero timestamp with now - fetchedAt < ttl returns
the cached value, performs no fetch, leaves the cache unchanged and never
throws (the function is total); in every other cache state the call
performs exactly one fetch attempt. -/
theorem C1_getAvailableDates_ttl_policy (cache : DatesCache) (now : Int) (df : DatesFetch) :
    (∀ d t, cache.data = some d → d ≠ "" → cache.timestamp = some t → t ≠ 0 →
      now - t < cache.ttl → getAvailableDates cache now df = ⟨d, cache, 0⟩) ∧
    ((∀ d t, cache.data = some d → cache.timestamp = some t → d ≠ "" → t ≠ 0 →
      cache.ttl ≤ now - t) → (getAvailableDates cache now df).fetchCount = 1) := by
  constructor
  · intro d t hd hne ht htne hlt
    have hh := hitB_true_of d t hd hne ht htne hlt
    simp [getAvailableDates, hh, hd]
  · intro hmiss
    have hh := hitB_false_of hmiss
    cases df with
    | transportError => simp [getAvailableDates, hh]
    | httpError s => simp [getAvailableDates, hh]
    | badJson => simp [getAvailableDates, hh]
    | success body => simp [getAvailableDates, hh]

/-- C1 witness: at a concrete fresh cache the cached value comes back with
no fetch; at the concrete empty initial cache exactly one fetch happens. -/
theorem C1_witness :
    getAvailableDates ⟨some "2025-05", some 1, 3600000⟩ 2 .transportError =
      ⟨"2025-05", ⟨some "2025-05", some 1, 3600000⟩, 0⟩ ∧
    (getAvailableDates ⟨none, none, 3600000⟩ 0 .transportError).fetchCount = 1 :=
  ⟨(C1_getAvailableDates_ttl_policy ⟨some "2025-05", some 1, 3600000⟩ 2 .transportError).1
      "2025-05" 1 rfl (by decide) rfl (by decide) (by decide),
   (C1_getAvailableDates_ttl_policy ⟨none, none, 3600000⟩ 0 .transportError).2
      (fun _ _ hd _ _ _ => nomatch hd)⟩

/-- C1 counterexample: the claim as stated quantifies over every cache
state in which a value is present; the state holding the present but empty
string value with a fresh timestamp is such a state, yet the code treats it
as a miss (JavaScript truthiness), performs a fetch and does not return the
cached value. -/
theorem C1_counterexample :
    (getAvailableDates ⟨some "", some 1, 3600000⟩ 2 .transportError).fetchCount = 1 ∧
    (getAvailableDates ⟨some "", some 1, 3600000⟩ 2 .transportError).value ≠ "" := by
  decide

/-- C2 (confirmed): whenever a refresh actually happens (the call is a
miss) and the upstream call fails with a transport error or a non 2xx
status, the cache is left unchanged, the error is not propagated (the
function returns normally) and the fixed fallback date 2025-06 is
returned. -/
theorem C2_refresh_failure_fallback (cache : DatesCache) (now : Int) (df : DatesFetch)
    (hmiss : ∀ d t, cache.data = some d → cache.timestamp = some t → d ≠ "" → t ≠ 0 →
      cache.ttl ≤ now - t)
    (hfail : df = .transportError ∨ ∃ s, df = .httpError s) :
    getAvailableDates cache now df = ⟨"2025-06", cache, 1⟩ := by
  have hh := hitB_false_of hmiss
  rcases hfail with h | ⟨s, h⟩ <;> subst h <;> simp [getAvailableDates, hh]

/-- C2 witness: the empty initial cache with a concrete 503 response. -/
theorem C2_witness :
    getAvailableDates ⟨none, none, 3600000⟩ 5 (.httpError 503) = ⟨"2025-06", ⟨none, none, 3600000⟩, 1⟩ :=
  C2_refresh_failure_fallback ⟨none, none, 3600000⟩ 5 (.httpError 503)
    (fun _ _ hd _ _ _ => nomatch hd) (Or.inr ⟨503, rfl⟩)

/-- C8 (confirmed): the initial cache has value and timestamp both absent;
every call either leaves the entry untouched or replaces it wholesale by a
complete record with both value and timestamp present, so the presence
invariant is preserved by every call. -/
theorem C8_cache_invariant :
    (initialDatesCache.data = none ∧ initialDatesCache.timestamp = none) ∧
    ∀ cache now df,
      ((getAvailableDates cache now df).cache = cache ∨
        ∃ v, (getAvailableDates cache now df).cache = ⟨some v, some now, cache.ttl⟩) ∧
      ((cache.data.isSome ↔ cache.timestamp.isSome) →
        ((getAvailableDates cache now df).cache.data.isSome ↔
          (getAvailableDates cache now df).cache.timestamp.isSome)) := by
  refine ⟨⟨rfl, rfl⟩, fun cache now df => ?_⟩
  by_cases hh : hitB cache now
  · constructor
    · left; simp [getAvailableDates, hh]
    · intro hinv; simpa [getAvailableDates, hh] using hinv
  · have hh' : hitB cache now = false := by simpa using hh
    cases df with
    | transportError => exact ⟨Or.inl (by simp [getAvailableDates, hh']),
        fun hinv => by simpa [getAvailableDates, hh'] using hinv⟩
    | httpError s => exact ⟨Or.inl (by simp [getAvailableDates, hh']),
        fun hinv => by simpa [getAvailableDates, hh'] using hinv⟩
    | badJson => exact ⟨Or.inl (by simp [getAvailableDates, hh']),
        fun hinv => by simpa [getAvailableDates, hh'] using hinv⟩
    | success body =>
      match body with
      | none => exact ⟨Or.inr ⟨"2025-06", by simp [getAvailableDates, hh']⟩,
          fun _ => by simp [getAvailableDates, hh']⟩
      | some [] => exact ⟨Or.inr ⟨"2025-06", by simp [getAvailableDates, hh']⟩,
          fun _ => by simp [getAvailableDates, hh']⟩
      | some (e :: rest) => exact ⟨Or.inr ⟨e.date, by simp [getAvailableDates, hh']⟩,
          fun _ => by simp [getAvailableDates, hh']⟩

/-- C8 witness: the invariant transfer applied at the initial cache and a
concrete refresh. -/
theorem C8_witness :
    ((getAvailableDates initialDatesCache 5 (.success (some [⟨"2025-07"⟩]))).cache.data.isSome ↔
      (getAvailableDates initialDatesCache 5 (.success (some [⟨"2025-07"⟩]))).cache.timestamp.isSome) :=
  (C8_cache_invariant.2 initialDatesCache 5 (.success (some [⟨"2025-07"⟩]))).2 (by decide)

/-- C9 (confirmed): a refresh whose 2xx body is the empty array or not an
array at all is treated as a successful refresh of the fallback value: the
cache is replaced by the fallback string 2025-06 stamped with the current
(nonzero) time, 2025-06 is returned, and a later call within the ttl is a
cache hit returning 2025-06 with no further fetch. -/
theorem C9_empty_body_refresh (cache : DatesCache) (now nxt : Int)
    (body : Option (List DateEntry)) (df2 : DatesFetch)
    (hmiss : ∀ d t, cache.data = some d → cache.timestamp = some t → d ≠ "" → t ≠ 0 →
      cache.ttl ≤ now - t)
    (hempty : body = none ∨ body = some [])
    (hnow : now ≠ 0)
    (hfresh : nxt - now < cache.ttl) :
    getAvailableDates cache now (.success body) =
      ⟨"2025-06", ⟨some "2025-06", some now, cache.ttl⟩, 1⟩ ∧
    getAvailableDates ⟨some "2025-06", some now, cache.ttl⟩ nxt df2 =
      ⟨"2025-06", ⟨some "2025-06", some now, cache.ttl⟩, 0⟩ := by
  have hh := hitB_false_of hmiss
  constructor
  · rcases hempty with h | h <;> subst h <;> simp [getAvailableDates, hh]
  · have hh2 : hitB ⟨some "2025-06", some now, cache.ttl⟩ nxt = true :=
      hitB_true_of "2025-06" now rfl (by decide) rfl hnow hfresh
    simp [getAvailableDates, hh2]

/-- C3 (amended): in the server.js variant only a NaN parse yields the
invalid-format error; a latitude that parses to plus or minus infinity
falls through to the range check and yields the latitude-range error (and
likewise for longitude), finite parses are range checked against
[-90, 90] and [-180, 180], and an in-range finite pair is returned exactly
as parsed.  The part_001 variant rejects every non finite parse with the
format error, as the claim originally stated, and agrees on finite
parses. -/
theorem C3_coordinate_validation (lat lng : String) :
    ((parseFloat lat = .nan ∨ parseFloat lng = .nan) →
      ServerJs.validateCoordinates lat lng = .invalid "Invalid coordinate format" ∧
      Part001.validateCoordinates lat lng = .invalid "Invalid coordinate format") ∧
    (∀ a, parseFloat lat = .fin a → parseFloat lng ≠ .nan → (a.toQ < -90 ∨ 90 < a.toQ) →
      ServerJs.validateCoordinates lat lng = .invalid "Latitude must be between -90 and 90") ∧
    ((parseFloat lat = .posInf ∨ parseFloat lat = .negInf) → parseFloat lng ≠ .nan →
      ServerJs.validateCoordinates lat lng = .invalid "Latitude must be between -90 and 90") ∧
    (∀ a b, parseFloat lat = .fin a → parseFloat lng = .fin b →
      -90 ≤ a.toQ → a.toQ ≤ 90 → (b.toQ < -180 ∨ 180 < b.toQ) →
      ServerJs.validateCoordinates lat lng = .invalid "Longitude must be between -180 and 180") ∧
    (∀ a, parseFloat lat = .fin a → -90 ≤ a.toQ → a.toQ ≤ 90 →
      (parseFloat lng = .posInf ∨ parseFloat lng = .negInf) →
      ServerJs.validateCoordinates lat lng = .invalid "Longitude must be between -180 and 180") ∧
    (∀ a b, parseFloat lat = .fin a → parseFloat lng = .fin b →
      -90 ≤ a.toQ → a.toQ ≤ 90 → -180 ≤ b.toQ → b.toQ ≤ 180 →
      ServerJs.validateCoordinates lat lng = .valid (.fin a) (.fin b) ∧
      Part001.validateCoordinates lat lng = .valid (.fin a) (.fin b)) ∧
    (((parseFloat lat).isFin = false ∨ (parseFloat lng).isFin = false) →
      Part001.validateCoordinates lat lng = .invalid "Invalid coordinate format") := by
  refine ⟨?_, ?_, ?_, ?_, ?_, ?_, ?_⟩
  · rintro (h | h) <;>
      exact ⟨by simp [ServerJs.validateCoordinates, h, JNum.isNaN],
             by simp [Part001.validateCoordinates, h, JNum.isFin]⟩
  · intro a ha hlng hout
    have hnn := isNaN_false_of_ne hlng
    rcases hout with h | h <;>
      simp [ServerJs.validateCoordinates, ha, hnn, JNum.isNaN, JNum.lt, Dec.blt_eq,
        toQ_n90, toQ_p90, h]
  · intro hinf hlng
    have hnn := isNaN_false_of_ne hlng
    rcases hinf with h | h <;>
      simp [ServerJs.validateCoordinates, h, hnn, JNum.isNaN, JNum.lt]
  · intro a b ha hb h1 h2 hout
    rcases hout with h | h <;>
      simp [ServerJs.validateCoordinates, ha, hb, JNum.isNaN, JNum.lt, Dec.blt_eq,
        toQ_n90, toQ_p90, toQ_n180, toQ_p180, not_lt.mpr h1, not_lt.mpr h2, h]
  · intro a ha h1 h2 hinf
    rcases hinf with h | h <;>
      simp [ServerJs.validateCoordinates, ha, h, JNum.isNaN, JNum.lt, Dec.blt_eq,
        toQ_n90, toQ_p90, not_lt.mpr h1, not_lt.mpr h2]
  · intro a b ha hb h1 h2 h3 h4
    constructor <;>
      simp [ServerJs.validateCoordinates, Part001.validateCoordinates, ha, hb, JNum.isNaN,
        JNum.isFin, JNum.lt, Dec.blt_eq, toQ_n90, toQ_p90, toQ_n180, toQ_p180,
        not_lt.mpr h1, not_lt.mpr h2, not_lt.mpr h3, not_lt.mpr h4]
  · rintro (h | h) <;> simp [Part001.validateCoordinates, h]

/-- C3 witness: a concrete out-of-range latitude, a concrete unparseable
latitude, and a concrete valid pair, all through the theorem. -/
theorem C3_witness :
    ServerJs.validateCoordinates "91" "0" = .invalid "Latitude must be between -90 and 90" ∧
    Part001.validateCoordinates "abc" "0" = .invalid "Invalid coordinate format" ∧
    ServerJs.validateCoordinates "51.5074" "-0.1278" = .valid (.fin ⟨515074, 4⟩) (.fin ⟨-1278, 4⟩) :=
  ⟨(C3_coordinate_validation "91" "0").2.1 ⟨91, 0⟩ (by decide) (by decide)
      (Or.inr (by norm_num [Dec.toQ, pow10])),
   (C3_coordinate_validation "abc" "0").2.2.2.2.2.2 (Or.inl (by decide)),
   ((C3_coordinate_validation "51.5074" "-0.1278").2.2.2.2.2.1 ⟨515074, 4⟩ ⟨-1278, 4⟩
      (by decide) (by decide)
      (by norm_num [Dec.toQ, pow10]) (by norm_num [Dec.toQ, pow10])
      (by norm_num [Dec.toQ, pow10]) (by norm_num [Dec.toQ, pow10])).1⟩

/-- C3 counterexample: the input Infinity parses to a non finite number,
so the claim requires the invalid-format error, but the server.js variant
reports the latitude-range error instead. -/
theorem C3_counterexample :
    ServerJs.validateCoordinates "Infinity" "0" = .invalid "Latitude must be between -90 and 90" ∧
    ServerJs.validateCoordinates "Infinity" "0" ≠ .invalid "Invalid coordinate format" := by
  decide

/-- C6 (confirmed): once validation has passed, a crime-fetch failure is
rendered as a single error payload with success false and the generic
message; a timeout-flavored message gives status 504, a non-2xx upstream
response (whose thrown message carries the UK Police API marker) gives 502
when not timeout-flavored, any other failure gives 500; and the raw error
text is attached only when NODE_ENV is development, which is not
production. -/
theorem C6_error_classification (q : CrimesQuery) (cache : DatesCache) (now : Int)
    (df : DatesFetch) (env : Option String) (la ln : JNum)
    (hv : ServerJs.validateCoordinates (q.lat.getD "51.5074") (q.lng.getD "-0.1278") =
      .valid la ln) :
    (∀ msg, containsSub msg "timeout" = true →
      (apiCrimes q cache now df (.failure msg) env).status = 504 ∧
      (apiCrimes q cache now df (.failure msg) env).success = false ∧
      (apiCrimes q cache now df (.failure msg) env).error =
        some "Failed to fetch crime data. Please try again.") ∧
    (∀ s st, containsSub (ukMsg s st) "timeout" = false →
      (apiCrimes q cache now df (.httpError s st) env).status = 502 ∧
      (apiCrimes q cache now df (.httpError s st) env).success = false ∧
      (apiCrimes q cache now df (.httpError s st) env).error =
        some "Failed to fetch crime data. Please try again.") ∧
    (∀ msg, containsSub msg "timeout" = false → containsSub msg "UK Police API" = false →
      (apiCrimes q cache now df (.failure msg) env).status = 500 ∧
      (apiCrimes q cache now df (.failure msg) env).success = false ∧
      (apiCrimes q cache now df (.failure msg) env).error =
        some "Failed to fetch crime data. Please try again.") ∧
    (∀ cf, (apiCrimes q cache now df cf env).details ≠ none →
      env = some "development" ∧ env ≠ some "production") := by
  refine ⟨?_, ?_, ?_, ?_⟩
  · intro msg hto
    simp [apiCrimes, hv, errorResult, classify, hto]
  · intro s st hto
    simp [apiCrimes, hv, errorResult, classify, hto, ukMsg_has_marker]
  · intro msg hto hapi
    simp [apiCrimes, hv, errorResult, classify, hto, hapi]
  · intro cf
    cases cf with
    | success crimes => simp [apiCrimes, hv]
    | failure msg =>
      by_cases he : env = some "development"
      · exact fun _ => ⟨he, by simp [he]⟩
      · simp [apiCrimes, hv, errorResult, he]
    | httpError s st =>
      by_cases he : env = some "development"
      · exact fun _ => ⟨he, by simp [he]⟩
      · simp [apiCrimes, hv, errorResult, he]

/-- C6 witness: a concrete timeout failure gives 504, a concrete 503
upstream response gives 502, a concrete unclassified failure gives 500. -/
theorem C6_witness :
    (apiCrimes ⟨some "1", some "2", some "2025-01"⟩ initialDatesCache 0 .transportError
      (.failure "network timeout at: upstream") none).status = 504 ∧
    (apiCrimes ⟨some "1", some "2", some "2025-01"⟩ initialDatesCache 0 .transportError
      (.httpError 503 "Service Unavailable") none).status = 502 ∧
    (apiCrimes ⟨some "1", some "2", some "2025-01"⟩ initialDatesCache 0 .transportError
      (.failure "socket hang up") none).status = 500 :=
  ⟨((C6_error_classification ⟨some "1", some "2", some "2025-01"⟩ initialDatesCache 0
      .transportError none (.fin ⟨1, 0⟩) (.fin ⟨2, 0⟩) (by decide)).1
      "network timeout at: upstream" (by decide)).1,
   ((C6_error_classification ⟨some "1", some "2", some "2025-01"⟩ initialDatesCache 0
      .transportError none (.fin ⟨1, 0⟩) (.fin ⟨2, 0⟩) (by decide)).2.1
      503 "Service Unavailable" (by decide)).1,
   ((C6_error_classification ⟨some "1", some "2", some "2025-01"⟩ initialDatesCache 0
      .transportError none (.fin ⟨1, 0⟩) (.fin ⟨2, 0⟩) (by decide)).2.2.1
      "socket hang up" (by decide) (by decide)).1⟩

/-- C7 (amended): after validation passes, a present and non empty date
parameter is used verbatim and getAvailableDates is not called at all (no
cache read, no fetch, cache unchanged); an absent or empty date parameter
is resolved through getAvailableDates; and on a successful crimes fetch the
response date field carries exactly the query date that was used. -/
theorem C7_date_resolution (q : CrimesQuery) (cache : DatesCache) (now : Int) (df : DatesFetch)
    (cf : CrimesFetch) (env : Option String) (la ln : JNum)
    (hv : ServerJs.validateCoordinates (q.lat.getD "51.5074") (q.lng.getD "-0.1278") =
      .valid la ln) :
    (∀ d, q.date = some d → d ≠ "" →
      (apiCrimes q cache now df cf env).usedDate = some d ∧
      (apiCrimes q cache now df cf env).consultedCache = false ∧
      (apiCrimes q cache now df cf env).datesFetchCount = 0 ∧
      (apiCrimes q cache now df cf env).cache = cache) ∧
    ((q.date = none ∨ q.date = some "") →
      (apiCrimes q cache now df cf env).usedDate =
        some (getAvailableDates cache now df).value ∧
      (apiCrimes q cache now df cf env).consultedCache = true) ∧
    (∀ crimes, cf = .success crimes →
      (apiCrimes q cache now df cf env).date = (apiCrimes q cache now df cf env).usedDate) := by
  refine ⟨?_, ?_, ?_⟩
  · intro d hd hne
    cases cf <;> simp [apiCrimes, hv, hd, hne, errorResult]
  · intro hd
    rcases hd with hd | hd <;> cases cf <;> simp [apiCrimes, hv, hd, errorResult]
  · intro crimes hcf
    subst hcf
    cases hq : q.date with
    | none => simp [apiCrimes, hv, hq]
    | some d => by_cases hde : d = "" <;> simp [apiCrimes, hv, hq, hde]

/-- C7 witness: a concrete non empty date is used verbatim without
consulting the cache; a concrete absent date resolves through
getAvailableDates and lands in the response date field. -/
theorem C7_witness :
    (apiCrimes ⟨some "1", some "2", some "2025-03"⟩ initialDatesCache 7 .transportError
      (.success []) none).usedDate = some "2025-03" ∧
    (apiCrimes ⟨some "1", some "2", some "2025-03"⟩ initialDatesCache 7 .transportError
      (.success []) none).consultedCache = false ∧
    (apiCrimes ⟨some "1", some "2", none⟩ initialDatesCache 7 .transportError
      (.success []) none).usedDate =
        some (getAvailableDates initialDatesCache 7 .transportError).value ∧
    (apiCrimes ⟨some "1", some "2", none⟩ initialDatesCache 7 .transportError
      (.success []) none).date =
      (apiCrimes ⟨some "1", some "2", none⟩ initialDatesCache 7 .transportError
        (.success []) none).usedDate :=
  ⟨((C7_date_resolution ⟨some "1", some "2", some "2025-03"⟩ initialDatesCache 7 .transportError
      (.success []) none (.fin ⟨1, 0⟩) (.fin ⟨2, 0⟩) (by decide)).1 "2025-03" rfl
      (by decide)).1,
   ((C7_date_resolution ⟨some "1", some "2", some "2025-03"⟩ initialDatesCache 7 .transportError
      (.success []) none (.fin ⟨1, 0⟩) (.fin ⟨2, 0⟩) (by decide)).1 "2025-03" rfl
      (by decide)).2.1,
   ((C7_date_resolution ⟨some "1", some "2", none⟩ initialDatesCache 7 .transportError
      (.success []) none (.fin ⟨1, 0⟩) (.fin ⟨2, 0⟩) (by decide)).2.1 (Or.inl rfl)).1,
   (C7_date_resolution ⟨some "1", some "2", none⟩ initialDatesCache 7 .transportError
      (.success []) none (.fin ⟨1, 0⟩) (.fin ⟨2, 0⟩) (by decide)).2.2 [] rfl⟩

/-- C7 counterexample: with the date parameter present but equal to the
empty string, the claim requires the supplied string to be used verbatim
with no cache consultation, but the code treats the empty string as falsy,
consults the cache (a hit here) and answers with the cached month instead;
and with the date parameter absent and a failing crimes fetch, the error
response carries no date field at all. -/
theorem C7_counterexample :
    (apiCrimes ⟨none, none, some ""⟩ ⟨some "2025-05", some 1, 3600000⟩ 2 .transportError
      (.success []) none).consultedCache = true ∧
    (apiCrimes ⟨none, none, some ""⟩ ⟨some "2025-05", some 1, 3600000⟩ 2 .transportError
      (.success []) none).date = some "2025-05" ∧
    some "2025-05" ≠ some "" ∧
    (apiCrimes ⟨none, none, none⟩ ⟨some "2025-05", some 1, 3600000⟩ 2 .transportError
      (.failure "boom") none).date = none := by
  decide

/-- C10 (confirmed): the handler behaves exactly as if a missing lat or lng
parameter had been supplied as the London default string, and a request
with no coordinates at all is not rejected: validation succeeds on the
defaults and the parsed London coordinates are the ones used for the
upstream query. -/
theorem C10_default_coordinates (q : CrimesQuery) (cache : DatesCache) (now : Int)
    (df : DatesFetch) (cf : CrimesFetch) (env : Option String) :
    apiCrimes q cache now df cf env =
      apiCrimes ⟨some (q.lat.getD "51.5074"), some (q.lng.getD "-0.1278"), q.date⟩
        cache now df cf env ∧
    (q.lat = none → q.lng = none →
      (apiCrimes q cache now df cf env).status ≠ 400 ∧
      (apiCrimes q cache now df cf env).usedLat = some (parseFloat "51.5074") ∧
      (apiCrimes q cache now df cf env).usedLng = some (parseFloat "-0.1278")) := by
  constructor
  · simp [apiCrimes]
  · intro hlat hlng
    have hv : ServerJs.validateCoordinates "51.5074" "-0.1278" =
        .valid (.fin ⟨515074, 4⟩) (.fin ⟨-1278, 4⟩) := by decide
    have hlaeq : parseFloat "51.5074" = JNum.fin ⟨515074, 4⟩ := by decide
    have hlneq : parseFloat "-0.1278" = JNum.fin ⟨-1278, 4⟩ := by decide
    cases cf with
    | success crimes =>
      refine ⟨?_, ?_, ?_⟩ <;> simp [apiCrimes, hlat, hlng, hv, hlaeq, hlneq]
    | failure msg =>
      refine ⟨?_, ?_, ?_⟩
      · simp only [apiCrimes, hlat, hlng, Option.getD_none, hv, errorResult]
        exact classify_ne_400 msg
      · simp [apiCrimes, hlat, hlng, hv, errorResult, hlaeq]
      · simp [apiCrimes, hlat, hlng, hv, errorResult, hlneq]
    | httpError s st =>
      refine ⟨?_, ?_, ?_⟩
      · simp only [apiCrimes, hlat, hlng, Option.getD_none, hv, errorResult]
        exact classify_ne_400 (ukMsg s st)
      · simp [apiCrimes, hlat, hlng, hv, errorResult, hlaeq]
      · simp [apiCrimes, hlat, hlng, hv, errorResult, hlneq]

/-- C10 witness: the fully coordinate-less request is not rejected and is
processed at the parsed London default. -/
theorem C10_witness :
    (apiCrimes ⟨none, none, none⟩ initialDatesCache 0 .transportError
      (.failure "boom") none).status ≠ 400 ∧
    (apiCrimes ⟨none, none, none⟩ initialDatesCache 0 .transportError
      (.failure "boom") none).usedLat = some (parseFloat "51.5074") :=
  ⟨((C10_default_coordinates ⟨none, none, none⟩ initialDatesCache 0 .transportError
      (.failure "boom") none).2 rfl rfl).1,
   ((C10_default_coordinates ⟨none, none, none⟩ initialDatesCache 0 .transportError
      (.failure "boom") none).2 rfl rfl).2.1⟩

/-- C4 (amended): calculateBounds returns null exactly when no record
passes the truthiness filter (location, latitude and longitude all present
and non empty); otherwise it returns the NaN-propagating Math.max and
Math.min of the parseFloat of the filtered records coordinates, so that
whenever every filtered latitude (resp. longitude) parses to a finite
number the north and south (resp. east and west) bounds are the maximum and
minimum of exactly those values. -/
theorem C4_bounding_box (crimes : List Crime) :
    (calculateBounds crimes = none ↔ crimes.filter hasCoords = []) ∧
    (∀ ds : List Dec,
      (crimes.filter hasCoords).map (fun c => parseFloat (locLat c)) = ds.map JNum.fin →
      ds ≠ [] →
      ∃ b, calculateBounds crimes = some b ∧
        (∃ m ∈ ds, b.north = .fin m ∧ ∀ x ∈ ds, x.toQ ≤ m.toQ) ∧
        (∃ m ∈ ds, b.south = .fin m ∧ ∀ x ∈ ds, m.toQ ≤ x.toQ)) ∧
    (∀ es : List Dec,
      (crimes.filter hasCoords).map (fun c => parseFloat (locLng c)) = es.map JNum.fin →
      es ≠ [] →
      ∃ b, calculateBounds crimes = some b ∧
        (∃ m ∈ es, b.east = .fin m ∧ ∀ x ∈ es, x.toQ ≤ m.toQ) ∧
        (∃ m ∈ es, b.west = .fin m ∧ ∀ x ∈ es, m.toQ ≤ x.toQ)) := by
  refine ⟨?_, ?_, ?_⟩
  · by_cases h0 : crimes.length = 0
    · rw [List.length_eq_zero.1 h0]
      simp [calculateBounds]
    · simp only [calculateBounds, if_neg h0]
      by_cases h1 : (crimes.filter hasCoords).length = 0
      · simp [h1, List.length_eq_zero.1 h1]
      · simp only [if_neg h1]
        constructor
        · intro hc; exact absurd hc (by simp)
        · intro hc; exact absurd (congrArg List.length hc) (by simpa using h1)
  · intro ds hmap hne
    have hfil : crimes.filter hasCoords ≠ [] := by
      intro hc
      rw [hc] at hmap
      exact hne (List.map_eq_nil_iff.1 hmap.symm)
    have h0 : ¬ crimes.length = 0 := by
      intro hl
      rw [List.length_eq_zero.1 hl] at hfil
      exact hfil rfl
    have h1 : ¬ (crimes.filter hasCoords).length = 0 :=
      fun hl => hfil (List.length_eq_zero.1 hl)
    have hb : calculateBounds crimes = some
        ⟨jmax ((crimes.filter hasCoords).map fun c => parseFloat (locLat c)),
         jmin ((crimes.filter hasCoords).map fun c => parseFloat (locLat c)),
         jmax ((crimes.filter hasCoords).map fun c => parseFloat (locLng c)),
         jmin ((crimes.filter hasCoords).map fun c => parseFloat (locLng c))⟩ := by
      simp only [calculateBounds, if_neg h0, if_neg h1]
    rw [hmap] at hb
    cases ds with
    | nil => exact absurd rfl hne
    | cons d ds =>
      obtain ⟨mN, hmN, hmemN, hallN⟩ := jmax_fin d ds
      obtain ⟨mS, hmS, hmemS, hallS⟩ := jmin_fin d ds
      refine ⟨_, hb, ⟨mN, hmemN, ?_, hallN⟩, ⟨mS, hmemS, ?_, hallS⟩⟩
      · simpa using hmN
      · simpa using hmS
  · intro es hmap hne
    have hfil : crimes.filter hasCoords ≠ [] := by
      intro hc
      rw [hc] at hmap
      exact hne (List.map_eq_nil_iff.1 hmap.symm)
    have h0 : ¬ crimes.length = 0 := by
      intro hl
      rw [List.length_eq_zero.1 hl] at hfil
      exact hfil rfl
    have h1 : ¬ (crimes.filter hasCoords).length = 0 :=
      fun hl => hfil (List.length_eq_zero.1 hl)
    have hb : calculateBounds crimes = some
        ⟨jmax ((crimes.filter hasCoords).map fun c => parseFloat (locLat c)),
         jmin ((crimes.filter hasCoords).map fun c => parseFloat (locLat c)),
         jmax ((crimes.filter hasCoords).map fun c => parseFloat (locLng c)),
         jmin ((crimes.filter hasCoords).map fun c => parseFloat (locLng c))⟩ := by
      simp only [calculateBounds, if_neg h0, if_neg h1]
    rw [hmap] at hb
    cases es with
    | nil => exact absurd rfl hne
    | cons d ds =>
      obtain ⟨mE, hmE, hmemE, hallE⟩ := jmax_fin d ds
      obtain ⟨mW, hmW, hmemW, hallW⟩ := jmin_fin d ds
      refine ⟨_, hb, ⟨mE, hmemE, ?_, hallE⟩, ⟨mW, hmemW, ?_, hallW⟩⟩
      · simpa using hmE
      · simpa using hmW

/-- C4 witness: on the two-record list with coordinates (51.0, -1.0) and
(52.0, -2.0) the bounds are north 52.0, south 51.0, east -1.0, west -2.0,
and the maximum characterization applies with the parsed latitudes. -/
theorem C4_witness :
    calculateBounds
      [⟨none, some ⟨some "51.0", some "-1.0"⟩⟩, ⟨none, some ⟨some "52.0", some "-2.0"⟩⟩] =
      some ⟨.fin ⟨520, 1⟩, .fin ⟨510, 1⟩, .fin ⟨-10, 1⟩, .fin ⟨-20, 1⟩⟩ ∧
    (∃ b, calculateBounds
        [⟨none, some ⟨some "51.0", some "-1.0"⟩⟩, ⟨none, some ⟨some "52.0", some "-2.0"⟩⟩] =
        some b ∧
      (∃ m ∈ ([⟨510, 1⟩, ⟨520, 1⟩] : List Dec), b.north = .fin m ∧
        ∀ x ∈ ([⟨510, 1⟩, ⟨520, 1⟩] : List Dec), x.toQ ≤ m.toQ) ∧
      (∃ m ∈ ([⟨510, 1⟩, ⟨520, 1⟩] : List Dec), b.south = .fin m ∧
        ∀ x ∈ ([⟨510, 1⟩, ⟨520, 1⟩] : List Dec), m.toQ ≤ x.toQ)) :=
  ⟨by decide,
   (C4_bounding_box
      [⟨none, some ⟨some "51.0", some "-1.0"⟩⟩, ⟨none, some ⟨some "52.0", some "-2.0"⟩⟩]).2.1
      [⟨510, 1⟩, ⟨520, 1⟩] (by decide) (by decide)⟩

/-- C4 counterexample: a record whose latitude field holds the non numeric
string abc is present but not numeric, so under the claim it must not
qualify; the code nevertheless keeps it (the string is truthy), so with it
alone the result is not null, and next to a well formed record the north
and south bounds become NaN instead of the numeric maximum the claim
demands. -/
theorem C4_counterexample :
    calculateBounds [⟨none, some ⟨some "abc", some "1"⟩⟩] =
      some ⟨.nan, .nan, .fin ⟨1, 0⟩, .fin ⟨1, 0⟩⟩ ∧
    calculateBounds [⟨none, some ⟨some "abc", some "1"⟩⟩] ≠ none ∧
    calculateBounds [⟨none, some ⟨some "abc", some "1"⟩⟩, ⟨none, some ⟨some "51", some "-1"⟩⟩] =
      some ⟨.nan, .nan, .fin ⟨1, 0⟩, .fin ⟨-1, 0⟩⟩ ∧
    calculateBounds [⟨none, some ⟨some "abc", some "1"⟩⟩, ⟨none, some ⟨some "51", some "-1"⟩⟩] ≠
      some ⟨.fin ⟨51, 0⟩, .fin ⟨51, 0⟩, .fin ⟨-1, 0⟩, .fin ⟨-1, 0⟩⟩ := by
  decide

/-- C5 (amended): for every list of records none of whose defaulted
category names collides with an Object.prototype property (the proto
accessor name or one of the inherited method names), processCrimeCategories
counts every record under its category (the literal unknown for a missing
or empty category), the numeric count at every key equals the number of
records mapping to it, the counts sum to the length of the input list, the
unknown key counts exactly the records whose category is missing, empty or
literally unknown, and the concrete three-record example yields burglary 2,
unknown 1.  For colliding category names the object lookup reaches the
prototype chain and the claimed counting behavior fails. -/
theorem C5_category_histogram (crimes : List Crime)
    (hsafe : ∀ c ∈ crimes, protoKey (jsCategory c) = false) :
    (∀ k, getCount (processCrimeCategories crimes) k =
      crimes.countP (fun c => decide (jsCategory c = k))) ∧
    ((processCrimeCategories crimes).map (fun p => jvalNum p.2)).sum = crimes.length ∧
    getCount (processCrimeCategories crimes) "unknown" =
      crimes.countP (fun c =>
        decide (c.category = none ∨ c.category = some "" ∨ c.category = some "unknown")) ∧
    processCrimeCategories
      [⟨some "burglary", none⟩, ⟨some "burglary", none⟩, ⟨none, none⟩] =
      [("burglary", .num 2), ("unknown", .num 1)] := by
  have hnil : safeMap [] := fun p hp => absurd hp (List.not_mem_nil p)
  refine ⟨?_, ?_, ?_, by decide⟩
  · intro k
    have h := getCount_fold crimes k [] hnil hsafe
    simpa [processCrimeCategories, getCount, List.lookup] using h
  · have h := sum_fold crimes [] hnil (by simp) hsafe
    simpa [processCrimeCategories] using h
  · have h := getCount_fold crimes "unknown" [] hnil hsafe
    have h2 : crimes.countP (fun c => decide (jsCategory c = "unknown")) =
        crimes.countP (fun c =>
          decide (c.category = none ∨ c.category = some "" ∨ c.category = some "unknown")) := by
      apply countP_ext
      intro c
      exact decide_eq_decide.mpr (cat_unknown_iff c)
    rw [← h2]
    simpa [processCrimeCategories, getCount, List.lookup] using h

/-- C5 witness: the three-record example is prototype-safe; through the
theorem, the burglary count is 2 and the counts sum to the list length 3. -/
theorem C5_witness :
    getCount (processCrimeCategories
      [⟨some "burglary", none⟩, ⟨some "burglary", none⟩, ⟨none, none⟩]) "burglary" = 2 ∧
    ((processCrimeCategories
      [⟨some "burglary", none⟩, ⟨some "burglary", none⟩, ⟨none, none⟩]).map
        (fun p => jvalNum p.2)).sum = 3 :=
  ⟨((C5_category_histogram
      [⟨some "burglary", none⟩, ⟨some "burglary", none⟩, ⟨none, none⟩]
      (by decide)).1 "burglary").trans (by decide),
   ((C5_category_histogram
      [⟨some "burglary", none⟩, ⟨some "burglary", none⟩, ⟨none, none⟩]
      (by decide)).2.1).trans (by decide)⟩

/-- C5 counterexample: the claim quantifies over every list of crime
records, but a record whose category is toString reads the truthy function
inherited from Object.prototype, so the stored value is the V8 source
string of that function concatenated with 1 instead of the count 1; and a
record whose category is the proto accessor name is swallowed by the
inherited setter, so the histogram stays empty and the counts sum to 0,
not to the list length 1. -/
theorem C5_counterexample :
    processCrimeCategories [⟨some "toString", none⟩] =
      [("toString", .str "function toString() \x7b [native code] \x7d1")] ∧
    processCrimeCategories [⟨some "toString", none⟩] ≠ [("toString", .num 1)] ∧
    processCrimeCategories [⟨some "__proto__", none⟩] = [] ∧
    ((processCrimeCategories [⟨some "__proto__", none⟩]).map
      (fun p => jvalNum p.2)).sum ≠ List.length [Crime.mk (some "__proto__") none] := by
  decide

/-- C9 witness: concrete null body at time 5, second call at time 6. -/
theorem C9_witness :
    getAvailableDates ⟨none, none, 3600000⟩ 5 (.success none) =
      ⟨"2025-06", ⟨some "2025-06", some 5, 3600000⟩, 1⟩ ∧
    getAvailableDates ⟨some "2025-06", some 5, 3600000⟩ 6 .transportError =
      ⟨"2025-06", ⟨some "2025-06", some 5, 3600000⟩, 0⟩ :=
  C9_empty_body_refresh ⟨none, none, 3600000⟩ 5 6 none .transportError
    (fun _ _ hd _ _ _ => nomatch hd) (Or.inl rfl) (by decide) (by decide)

end CrimeSpotter
